import Mathlib

/-!
Shallow embedding of `src/index.ts` of the contentful-image package.

The source is a small TypeScript module with three functions:
`getContentfulImageSrcUrl` (source resolver), `getContentfulImageQuery`
(query builder) and the default export `contentfulImage` (composer),
plus two static tables `optionQueryKeys` and `transformers`.

JavaScript-specific semantics modelled explicitly here:
- `String.prototype.replace` with a string pattern replaces only the FIRST
  occurrence of the pattern (`replaceFirstHash`).
- `String.prototype.split` with a one-character separator never returns an
  empty array: `"".split("/") = [""]` (`jsSplitChar`).
- `Number.parseInt(s, 10)` skips leading whitespace, reads an optional sign
  and then leading decimal digits; it yields NaN when no digit is found
  (`parseInt10` returns `none` for NaN).
- `Math.max`, `Math.min` and `Math.round` propagate NaN, and `NaN.toString()`
  is `"NaN"`; on an integer, `Math.round` is the identity.
- A runtime crash (a TypeError from reading a property of `undefined`) is
  modelled with `Option`: `none` means the JS code throws.
-/

namespace ContentfulImage

/-- A JavaScript value that can occur as an option value in
`ContentfulImageOptions`: a string (format, fit, focusArea, backgroundColor,
the radius literal `"max"`), an integral number (width, height, radius,
quality), or the number NaN. -/
inductive JSValue where
| str (s : String)
| int (n : Int)
| nan
deriving DecidableEq

/-- JS `value.toString()` for the values above: a string stringifies to
itself, an integral number to its base-10 representation, NaN to `"NaN"`. -/
def jsToString : JSValue → String
| .str s => s
| .int n => toString n
| .nan => "NaN"

/-- JS `value.replace("#", "")` on the character list of the string:
`String.prototype.replace` with a string pattern removes only the FIRST
occurrence of `'#'`. -/
def replaceFirstHash : List Char → List Char
| [] => []
| c :: cs => if c = '#' then cs else c :: replaceFirstHash cs

/-- The `backgroundColor` transformer of the `transformers` table:
`(value) => "rgb:" + value.replace("#", "")`. -/
def backgroundColor (value : String) : String :=
  "rgb:" ++ String.mk (replaceFirstHash value.data)

/-- Digit-list value, `foldl` over base-10 digits. -/
def digitsToNat (ds : List Char) : Nat :=
  ds.foldl (fun a c => a * 10 + (c.toNat - '0'.toNat)) 0

/-- Leading decimal digits of a character list; `none` when there is no
leading digit (JS parseInt yields NaN then). -/
def parseDigits (l : List Char) : Option Nat :=
  let ds := l.takeWhile (fun c => c.isDigit)
  if ds.isEmpty then none else some (digitsToNat ds)

/-- JS `Number.parseInt(s, 10)`: skip leading whitespace, read an optional
sign and then the leading run of decimal digits; `none` models NaN. -/
def parseInt10 (s : String) : Option Int :=
  match s.data.dropWhile (fun c => c.isWhitespace) with
  | '-' :: rest => (parseDigits rest).map (fun n => -(n : Int))
  | '+' :: rest => (parseDigits rest).map (fun n => (n : Int))
  | l => (parseDigits l).map (fun n => (n : Int))

/-- `Math.min(100, Math.max(1, n))` on an integer. -/
def clampQ (n : Int) : Int := min 100 (max 1 n)

/-- The `quality` transformer of the `transformers` table:
`(value) => Math.round(Math.min(100, Math.max(1, Number.parseInt(value, 10)))).toString()`.
`Math.round` on the integer produced by `parseInt` is the identity; when
`parseInt` yields NaN, NaN propagates through `Math.max`, `Math.min` and
`Math.round` and stringifies to `"NaN"`. -/
def quality (value : String) : String :=
  match parseInt10 value with
  | some n => toString (clampQ n)
  | none => "NaN"

/-- The `optionQueryKeys` table: wire-parameter names per option name;
`none` models a JS property access yielding `undefined` for a key that is
not in the record. -/
def optionQueryKeys : String → Option (List String)
| "backgroundColor" => some ["bg"]
| "quality" => some ["q"]
| "radius" => some ["r"]
| "focusArea" => some ["f"]
| "fit" => some ["fit"]
| "height" => some ["h"]
| "width" => some ["w"]
| "format" => some ["fm", "fl"]
| _ => none

/-- The `transformers` table: a partial record holding the two transformers. -/
def transformers : String → Option (String → String)
| "backgroundColor" => some backgroundColor
| "quality" => some quality
| _ => none

/-- `ContentfulImageSource`: either a raw URL string, or an object inspected
by key presence. `obj fieldsFileUrl fileUrl url` models a JS object where
each argument is `some u` when the corresponding key chain
(`fields.file.url` / `file.url` / `url`) is present with URL `u`, and `none`
when the key is absent; an object may carry several of the keys at once. -/
inductive ContentfulImageSource where
| str (s : String)
| obj (fieldsFileUrl fileUrl url : Option String)

/-- JS `url.startsWith("//")`: the first two characters exist and are both
`'/'`. -/
def startsWithSlashSlash (u : String) : Bool :=
  match u.data with
  | c₁ :: c₂ :: _ => c₁ = '/' && c₂ = '/'
  | _ => false

/-- JS split on a one-character separator, on character lists:
`"".split(sep)` is `[""]`, and each separator occurrence starts a new
segment. -/
def jsSplitChar (sep : Char) : List Char → List (List Char)
| [] => [[]]
| c :: cs =>
  let rest := jsSplitChar sep cs
  if c = sep then [] :: rest
  else (c :: rest.headD []) :: rest.tail

/-- The query-stripping step of `getContentfulImageSrcUrl`:
`if (url.includes("?")) url = url.split("?")[0]`. -/
def stripQuery (u : String) : String :=
  if '?' ∈ u.data then String.mk ((jsSplitChar '?' u.data).headD []) else u

/-- The normalization pipeline of `getContentfulImageSrcUrl` on the raw URL:
`if (url.startsWith("//")) url = "https:" + url;` then strip the query. -/
def getBaseUrl (url : String) : String :=
  stripQuery (if startsWithSlashSlash url then "https:" ++ url else url)

/-- `getContentfulImageSrcUrl`: extract the raw URL by shape precedence
(`"fields" in src` first, then `"file" in src`, else `src.url`), then
normalize. `none` models the TypeError thrown when an object has none of
the three keys (`src.url` is `undefined`). -/
def getContentfulImageSrcUrl : ContentfulImageSource → Option String
| .str s => some (getBaseUrl s)
| .obj (some u) _ _ => some (getBaseUrl u)
| .obj none (some u) _ => some (getBaseUrl u)
| .obj none none (some u) => some (getBaseUrl u)
| .obj none none none => none

/-- The body of the per-entry arrow function in `getContentfulImageQuery`:
look up the wire-parameter names (a miss makes `queryKeys.map` throw,
modelled `none`), stringify and optionally transform the value, split on
`"/"`, pair names with sub-values by index dropping falsy pairs. -/
def processOptionEntry (key : String) (value : JSValue) : Option (List String) :=
  match optionQueryKeys key with
  | none => none
  | some queryKeys =>
    let strv := match transformers key with
      | some t => t (jsToString value)
      | none => jsToString value
    let values := (jsSplitChar '/' strv.data).map String.mk
    some ((queryKeys.enum.map (fun p =>
      if p.2 = "" ∨ values.getD p.1 "" = "" then ""
      else p.2 ++ "=" ++ values.getD p.1 "")).filter (fun s => ¬ s = ""))

/-- The `.map` over `Object.entries(options)`: process each entry in
insertion order; a thrown TypeError aborts the whole call (`none`). -/
def collectEntries : List (String × JSValue) → Option (List (List String))
| [] => some []
| e :: rest =>
  match processOptionEntry e.1 e.2 with
  | none => none
  | some part => (collectEntries rest).map (fun ls => part :: ls)

/-- JS `Array.prototype.join("&")`. -/
def joinAmp : List String → String
| [] => ""
| [s] => s
| s :: rest => s ++ "&" ++ joinAmp rest

/-- `getContentfulImageQuery(options)`: map the entries, `.flat()`, and
`.join("&")`. The entries list models `Object.entries(options)` in
insertion order; `none` models a thrown TypeError. -/
def getContentfulImageQuery (options : List (String × JSValue)) : Option String :=
  (collectEntries options).map (fun ls => joinAmp ls.flatten)

/-- `contentfulImage(src, options = {})`: resolve the source URL, build the
query, and return `url + (query ? "?" + query : "")`. -/
def contentfulImage (src : ContentfulImageSource)
    (options : List (String × JSValue) := []) : Option String :=
  match getContentfulImageSrcUrl src with
  | none => none
  | some url =>
    match getContentfulImageQuery options with
    | none => none
    | some query => some (url ++ (if query = "" then "" else "?" ++ query))

/-! ## Helper lemmas -/

theorem mk_data (s : String) : String.mk s.data = s := by
  cases s
  rfl

theorem jsSplit_ne_nil (sep : Char) (l : List Char) : jsSplitChar sep l ≠ [] := by
  cases l with
  | nil => simp [jsSplitChar]
  | cons c cs =>
    simp only [jsSplitChar]
    split <;> simp

theorem jsSplit_of_not_mem (sep : Char) (l : List Char) (h : sep ∉ l) :
    jsSplitChar sep l = [l] := by
  induction l with
  | nil => rfl
  | cons c cs ih =>
    simp only [List.mem_cons, not_or] at h
    have hc : ¬ c = sep := fun hc => h.1 hc.symm
    simp [jsSplitChar, if_neg hc, ih h.2]

theorem jsSplit_headD_of_append (sep : Char) (l₁ l₂ : List Char) (h : sep ∉ l₁) :
    (jsSplitChar sep (l₁ ++ sep :: l₂)).headD [] = l₁ := by
  induction l₁ with
  | nil => simp [jsSplitChar]
  | cons c cs ih =>
    simp only [List.mem_cons, not_or] at h
    have hc : ¬ c = sep := fun hc => h.1 hc.symm
    simp only [jsSplitChar, if_neg hc]
    simpa using ih h.2

theorem jsSplit_headD_initial (sep : Char) (l : List Char) :
    ∃ r, l = (jsSplitChar sep l).headD [] ++ r := by
  induction l with
  | nil => exact ⟨[], rfl⟩
  | cons c cs ih =>
    by_cases hc : c = sep
    · exact ⟨c :: cs, by simp [jsSplitChar, if_pos hc]⟩
    · obtain ⟨r, hr⟩ := ih
      refine ⟨r, ?_⟩
      simp only [jsSplitChar, if_neg hc, List.headD_cons]
      rw [List.cons_append, ← hr]

theorem startsWith_append_query (u s : String) :
    startsWithSlashSlash (u ++ "?" ++ s) = startsWithSlashSlash u := by
  have hdata : (u ++ "?" ++ s).data = u.data ++ '?' :: s.data := by
    simp [String.data_append]
  rw [startsWithSlashSlash, startsWithSlashSlash, hdata]
  rcases u.data with _ | ⟨c₁, _ | ⟨c₂, t⟩⟩
  · rcases s.data with _ | ⟨d, ds⟩ <;> simp
  · simp
  · rfl

theorem stripQuery_of_not_mem (u : String) (h : '?' ∉ u.data) :
    stripQuery u = u := by
  rw [stripQuery, if_neg h]

theorem stripQuery_append_query (u s : String) (h : '?' ∉ u.data) :
    stripQuery (u ++ "?" ++ s) = u := by
  have hdata : (u ++ "?" ++ s).data = u.data ++ '?' :: s.data := by
    simp [String.data_append]
  rw [stripQuery, hdata, if_pos (by simp), jsSplit_headD_of_append _ _ _ h, mk_data]

theorem no_query_in_https : '?' ∉ ("https:" : String).data := by decide

theorem replaceFirstHash_of_not_mem (l : List Char) (h : '#' ∉ l) :
    replaceFirstHash l = l := by
  induction l with
  | nil => rfl
  | cons c cs ih =>
    simp only [List.mem_cons, not_or] at h
    have hc : ¬ c = '#' := fun hc => h.1 hc.symm
    simp [replaceFirstHash, if_neg hc, ih h.2]

theorem replaceFirstHash_append (l₁ l₂ : List Char) (h : '#' ∉ l₁) :
    replaceFirstHash (l₁ ++ '#' :: l₂) = l₁ ++ l₂ := by
  induction l₁ with
  | nil => simp [replaceFirstHash]
  | cons c cs ih =>
    simp only [List.mem_cons, not_or] at h
    have hc : ¬ c = '#' := fun hc => h.1 hc.symm
    simp [replaceFirstHash, if_neg hc, ih h.2]

theorem clampQ_bounds (n : Int) : 1 ≤ clampQ n ∧ clampQ n ≤ 100 := by
  unfold clampQ
  constructor <;> omega

theorem clampQ_idem (n : Int) : clampQ (clampQ n) = clampQ n := by
  unfold clampQ
  omega

theorem toString_int_small (m : Int) (h1 : 1 ≤ m) (h2 : m ≤ 100) :
    parseInt10 (toString m) = some m ∧ '.' ∉ (toString m).data := by
  interval_cases m <;> exact ⟨by decide, by decide⟩

theorem processOptionEntry_none_iff (k : String) (v : JSValue) :
    processOptionEntry k v = none ↔ optionQueryKeys k = none := by
  unfold processOptionEntry
  cases h : optionQueryKeys k <;> simp [h]

theorem collectEntries_none (options : List (String × JSValue)) (k : String)
    (v : JSValue) (hmem : (k, v) ∈ options) (hk : optionQueryKeys k = none) :
    collectEntries options = none := by
  induction options with
  | nil => cases hmem
  | cons e rest ih =>
    simp only [collectEntries]
    rcases List.mem_cons.mp hmem with he | he
    · have hp : processOptionEntry e.1 e.2 = none := by
        subst he
        exact (processOptionEntry_none_iff k v).mpr hk
      rw [hp]
    · cases hp : processOptionEntry e.1 e.2 with
      | none => rfl
      | some part => rw [ih he]; rfl

theorem collectEntries_isSome (options : List (String × JSValue))
    (h : ∀ e ∈ options, (optionQueryKeys e.1).isSome) :
    (collectEntries options).isSome := by
  induction options with
  | nil => rfl
  | cons e rest ih =>
    have he := h e (List.mem_cons_self e rest)
    have hp : (processOptionEntry e.1 e.2).isSome := by
      unfold processOptionEntry
      cases hq : optionQueryKeys e.1 with
      | none => rw [hq] at he; cases he
      | some qk => rfl
    obtain ⟨part, hpart⟩ := Option.isSome_iff_exists.mp hp
    have hrest := ih (fun e' he' => h e' (List.mem_cons_of_mem _ he'))
    obtain ⟨ls, hls⟩ := Option.isSome_iff_exists.mp hrest
    simp only [collectEntries, hpart, hls]
    rfl

/-! ## Claim theorems -/

/-- Claim C1, counterexample: the claim states that every `'#'` character is
removed from the value, so `backgroundColor "##123123"` would have to be
`"rgb:123123"`; the code removes only the first occurrence (JS
`String.prototype.replace` with a string pattern) and returns
`"rgb:#123123"`. -/
theorem claim_C1_counterexample :
    ¬ backgroundColor "##123123" = "rgb:123123" := by decide

/-- Claim C1, amended: the backgroundColor transformer returns `"rgb:"`
followed by the value with only the FIRST `'#'` character removed; on values
with at most one `'#'` this agrees with the original claim:
`backgroundColor "#123123" = "rgb:123123"`,
`backgroundColor "abcabc" = "rgb:abcabc"`. -/
theorem claim_C1_amended :
    (∀ v : String, '#' ∉ v.data → backgroundColor v = "rgb:" ++ v)
    ∧ (∀ a b : String, '#' ∉ a.data →
        backgroundColor (a ++ "#" ++ b) = "rgb:" ++ (a ++ b))
    ∧ backgroundColor "#123123" = "rgb:123123"
    ∧ backgroundColor "abcabc" = "rgb:abcabc"
    ∧ backgroundColor "##123123" = "rgb:#123123" := by
  refine ⟨?_, ?_, by decide, by decide, by decide⟩
  · intro v h
    rw [backgroundColor, replaceFirstHash_of_not_mem _ h, mk_data]
  · intro a b h
    have hdata : (a ++ "#" ++ b).data = a.data ++ '#' :: b.data := by
      simp [String.data_append]
    rw [backgroundColor, hdata, replaceFirstHash_append _ _ h]
    exact congrArg (fun t => "rgb:" ++ t) (String.ext (by simp [String.data_append]))

theorem claim_C1_amended_witness :
    ('#' ∉ ("abcabc" : String).data
      ∧ backgroundColor "abcabc" = "rgb:" ++ "abcabc")
    ∧ ('#' ∉ ("12" : String).data
      ∧ backgroundColor ("12" ++ "#" ++ "34") = "rgb:" ++ ("12" ++ "34")) :=
  ⟨⟨by decide, claim_C1_amended.1 "abcabc" (by decide)⟩,
   ⟨by decide, claim_C1_amended.2.1 "12" "34" (by decide)⟩⟩

/-- Claim C5: resolving the four source shapes carrying the same URL `u`
(the raw string, `{url}`, `{file.url}`, `{fields.file.url}`) gives the
identical string `getBaseUrl u`; and on an object carrying several keys at
once the precedence is `fields.file.url`, then `file.url`, then `url`. -/
theorem claim_C5 :
    (∀ u : String,
      getContentfulImageSrcUrl (.str u) = some (getBaseUrl u)
      ∧ getContentfulImageSrcUrl (.obj none none (some u)) = some (getBaseUrl u)
      ∧ getContentfulImageSrcUrl (.obj none (some u) none) = some (getBaseUrl u)
      ∧ getContentfulImageSrcUrl (.obj (some u) none none) = some (getBaseUrl u))
    ∧ (∀ (a : String) (fo uo : Option String),
        getContentfulImageSrcUrl (.obj (some a) fo uo)
          = getContentfulImageSrcUrl (.str a))
    ∧ (∀ (b : String) (uo : Option String),
        getContentfulImageSrcUrl (.obj none (some b) uo)
          = getContentfulImageSrcUrl (.str b)) :=
  ⟨fun _ => ⟨rfl, rfl, rfl, rfl⟩, fun _ _ _ => rfl, fun _ _ => rfl⟩

/-- Claim C6: the resolver strips everything from the first `'?'` onward:
for every string `u` without `'?'` and every string `s`, resolving
`u ++ "?" ++ s` gives the same result as resolving `u`. -/
theorem claim_C6 (u s : String) (h : '?' ∉ u.data) :
    getContentfulImageSrcUrl (.str (u ++ "?" ++ s))
      = getContentfulImageSrcUrl (.str u) := by
  show some (getBaseUrl (u ++ "?" ++ s)) = some (getBaseUrl u)
  rw [getBaseUrl, getBaseUrl, startsWith_append_query]
  by_cases hs : startsWithSlashSlash u
  · rw [if_pos hs, if_pos hs]
    have hassoc : "https:" ++ (u ++ "?" ++ s) = ("https:" ++ u) ++ "?" ++ s :=
      String.ext (by simp [String.data_append])
    have hq : '?' ∉ ("https:" ++ u).data := by
      simp only [String.data_append, List.mem_append]
      rintro (hc | hc)
      · exact no_query_in_https hc
      · exact h hc
    rw [hassoc, stripQuery_append_query _ _ hq, stripQuery_of_not_mem _ hq]
  · rw [if_neg hs, if_neg hs, stripQuery_append_query _ _ h,
      stripQuery_of_not_mem _ h]

theorem claim_C6_witness :
    '?' ∉ ("https://a.b.c/img" : String).data
    ∧ getContentfulImageSrcUrl (.str ("https://a.b.c/img" ++ "?" ++ "a=b"))
      = getContentfulImageSrcUrl (.str "https://a.b.c/img") :=
  ⟨by decide, claim_C6 "https://a.b.c/img" "a=b" (by decide)⟩

/-- Claim C7: the resolver prepends `"https:"` if and only if the extracted
raw URL starts with `"//"`; otherwise the URL is not modified at its start
(the result is an initial segment of the input), and
`contentfulImage "//a.b.c/img?a=b"` is `"https://a.b.c/img"`. -/
theorem claim_C7 :
    (∀ u : String, startsWithSlashSlash u = true →
      getContentfulImageSrcUrl (.str u) = some (stripQuery ("https:" ++ u)))
    ∧ (∀ u : String, startsWithSlashSlash u = false →
      getContentfulImageSrcUrl (.str u) = some (stripQuery u)
      ∧ ∃ r, u.data = (stripQuery u).data ++ r)
    ∧ contentfulImage (.str "//a.b.c/img?a=b") [] = some "https://a.b.c/img" := by
  refine ⟨?_, ?_, by decide⟩
  · intro u hu
    show some (getBaseUrl u) = _
    rw [getBaseUrl, if_pos hu]
  · intro u hu
    refine ⟨?_, ?_⟩
    · show some (getBaseUrl u) = _
      rw [getBaseUrl, if_neg (by simp [hu])]
    · rw [stripQuery]
      by_cases hq : '?' ∈ u.data
      · rw [if_pos hq]
        obtain ⟨r, hr⟩ := jsSplit_headD_initial '?' u.data
        exact ⟨r, by simpa using hr⟩
      · rw [if_neg hq]
        exact ⟨[], by simp⟩

/-- Claim C2, counterexample: the claim states that an entry with an
unrecognized name is silently ignored and the query equals the one built
from the recognized entries alone; in the code the wire-parameter lookup
yields `undefined` and `queryKeys.map` throws, so the call with the extra
entry `("foo", "x")` fails instead of producing `"w=100"`. -/
theorem claim_C2_counterexample :
    ¬ getContentfulImageQuery [("foo", JSValue.str "x"), ("width", JSValue.int 100)]
      = getContentfulImageQuery [("width", JSValue.int 100)] := by decide

/-- Claim C2, amended: an options mapping containing an entry whose name is
not one of the eight recognized option names makes the query builder fail
(a TypeError, modelled `none`) rather than silently ignoring the entry;
when every entry name is recognized the builder never fails. -/
theorem claim_C2_amended :
    (∀ (options : List (String × JSValue)) (k : String) (v : JSValue),
      (k, v) ∈ options → optionQueryKeys k = none →
      getContentfulImageQuery options = none)
    ∧ (∀ options : List (String × JSValue),
      (∀ e ∈ options, (optionQueryKeys e.1).isSome) →
      (getContentfulImageQuery options).isSome) := by
  constructor
  · intro options k v hmem hk
    rw [getContentfulImageQuery, collectEntries_none options k v hmem hk]
    rfl
  · intro options h
    rw [getContentfulImageQuery]
    obtain ⟨ls, hls⟩ := Option.isSome_iff_exists.mp (collectEntries_isSome options h)
    rw [hls]
    rfl

theorem claim_C2_amended_witness :
    (("foo", JSValue.str "x") ∈ [(("foo" : String), JSValue.str "x")]
      ∧ optionQueryKeys "foo" = none
      ∧ getContentfulImageQuery [("foo", JSValue.str "x")] = none)
    ∧ ((∀ e ∈ [(("width" : String), JSValue.int 100)], (optionQueryKeys e.1).isSome)
      ∧ (getContentfulImageQuery [("width", JSValue.int 100)]).isSome) :=
  ⟨⟨by decide, by decide,
      claim_C2_amended.1 [("foo", JSValue.str "x")] "foo" (JSValue.str "x")
        (by decide) (by decide)⟩,
   ⟨by decide,
      claim_C2_amended.2 [("width", JSValue.int 100)] (by decide)⟩⟩

/-- Claim C9: the format option fans out to the wire names `fm` and `fl`:
the value is split on `'/'` and paired by index, and a pair whose sub-value
is missing or empty is omitted entirely, so `format: "png/png8"` gives
`"fm=png&fl=png8"`, and any plain one-segment format value `v` gives only
`"fm=" ++ v`, never a trailing `"&fl="`. -/
theorem claim_C9 :
    getContentfulImageQuery [("format", JSValue.str "png/png8")]
      = some "fm=png&fl=png8"
    ∧ getContentfulImageQuery [("format", JSValue.str "png")] = some "fm=png"
    ∧ (∀ v : String, ¬ v = "" → '/' ∉ v.data →
        getContentfulImageQuery [("format", JSValue.str v)]
          = some ("fm=" ++ v)) := by
  refine ⟨by decide, by decide, ?_⟩
  intro v hne hs
  have hentry : processOptionEntry "format" (JSValue.str v)
      = some ["fm=" ++ v] := by
    have hkeys : optionQueryKeys "format" = some ["fm", "fl"] := rfl
    have htrans : transformers "format" = none := rfl
    have henum : (["fm", "fl"] : List String).enum = [(0, "fm"), (1, "fl")] := rfl
    have hpair : ¬ ("fm=" ++ v) = "" := by
      simp [String.ext_iff, String.data_append]
    simp only [processOptionEntry, hkeys, htrans, jsToString,
      jsSplit_of_not_mem '/' v.data hs, List.map_cons, List.map_nil, mk_data,
      henum, List.getD_cons_zero, List.getD_cons_succ, List.getD_nil]
    simp [hne, hpair, List.filter]
  rw [getContentfulImageQuery]
  have hcoll : collectEntries [("format", JSValue.str v)]
      = some [["fm=" ++ v]] := by
    simp only [collectEntries, hentry]
    rfl
  rw [hcoll]
  show some (joinAmp [["fm=" ++ v]].flatten) = some ("fm=" ++ v)
  simp [joinAmp]

theorem claim_C9_witness :
    ¬ ("avif" : String) = "" ∧ '/' ∉ ("avif" : String).data
    ∧ getContentfulImageQuery [("format", JSValue.str "avif")]
      = some ("fm=" ++ "avif") :=
  ⟨by decide, by decide, claim_C9.2.2 "avif" (by decide) (by decide)⟩

/-- Claim C3: for every numeric quality value, given through its
stringification `s` (a string that parses as a base-10 integer `n`, as every
stringified finite number does), the quality transformer clamps `n` to
`[1, 100]` and re-stringifies it in plain base-10 with no decimal point;
concretely `0 → "1"`, `-1 → "1"`, `10000 → "100"`, `51.1 → "51"`. -/
theorem claim_C3 :
    (∀ (s : String) (n : Int), parseInt10 s = some n →
      quality s = toString (clampQ n)
      ∧ 1 ≤ clampQ n ∧ clampQ n ≤ 100
      ∧ '.' ∉ (quality s).data)
    ∧ quality "0" = "1" ∧ quality "-1" = "1"
    ∧ quality "10000" = "100" ∧ quality "51.1" = "51" := by
  refine ⟨?_, by decide, by decide, by decide, by decide⟩
  intro s n h
  have hb := clampQ_bounds n
  have hq : quality s = toString (clampQ n) := by
    unfold quality
    rw [h]
  refine ⟨hq, hb.1, hb.2, ?_⟩
  rw [hq]
  exact (toString_int_small (clampQ n) hb.1 hb.2).2

theorem claim_C3_witness :
    parseInt10 "0" = some 0
    ∧ (quality "0" = toString (clampQ 0)
      ∧ 1 ≤ clampQ 0 ∧ clampQ 0 ≤ 100
      ∧ '.' ∉ (quality "0").data) :=
  ⟨by decide, claim_C3.1 "0" 0 (by decide)⟩

/-- Claim C4: the quality transformer is idempotent on every input string
(every stringified numeric value included), and monotonic: when two inputs
parse to integers `m ≤ n`, the produced clamped integers are ordered the
same way. -/
theorem claim_C4 :
    (∀ s : String, quality (quality s) = quality s)
    ∧ (∀ (s t : String) (m n : Int),
        parseInt10 s = some m → parseInt10 t = some n →
        m ≤ n → clampQ m ≤ clampQ n) := by
  constructor
  · intro s
    cases h : parseInt10 s with
    | none =>
      have hs : quality s = "NaN" := by
        unfold quality
        rw [h]
      rw [hs]
      decide
    | some n =>
      have hb := clampQ_bounds n
      have hs : quality s = toString (clampQ n) := by
        unfold quality
        rw [h]
      rw [hs]
      unfold quality
      rw [(toString_int_small (clampQ n) hb.1 hb.2).1]
      show toString (clampQ (clampQ n)) = toString (clampQ n)
      rw [clampQ_idem]
  · intro s t m n _ _ hmn
    unfold clampQ
    omega

theorem claim_C4_witness :
    parseInt10 "3" = some 3 ∧ parseInt10 "70000" = some 70000
    ∧ (3 : Int) ≤ 70000 ∧ clampQ 3 ≤ clampQ 70000 :=
  ⟨by decide, by decide, by decide,
    claim_C4.2 "3" "70000" 3 70000 (by decide) (by decide) (by decide)⟩

/-- Claim C10: when the quality option holds the number NaN, the query
builder neither fails nor clamps: `parseInt` yields NaN, NaN propagates
through the clamp and stringifies to `"NaN"`, and the builder emits the
literal pair `q=NaN`. -/
theorem claim_C10 :
    getContentfulImageQuery [("quality", JSValue.nan)] = some "q=NaN"
    ∧ quality "NaN" = "NaN" := by decide

/-- Claim C8: the composer returns the resolved URL unchanged when the
built query string is empty (in particular with no options at all), and
otherwise appends `"?"` and the query string. -/
theorem claim_C8 :
    (∀ src : ContentfulImageSource,
      contentfulImage src [] = getContentfulImageSrcUrl src)
    ∧ (∀ (src : ContentfulImageSource) (opts : List (String × JSValue))
        (r q : String),
        getContentfulImageSrcUrl src = some r →
        getContentfulImageQuery opts = some q →
        contentfulImage src opts = some (if q = "" then r else r ++ "?" ++ q)) := by
  constructor
  · intro src
    cases h : getContentfulImageSrcUrl src with
    | none => simp [contentfulImage, h]
    | some url =>
      have hq : getContentfulImageQuery ([] : List (String × JSValue)) = some "" :=
        rfl
      simp [contentfulImage, h, hq, String.append_empty]
  · intro src opts r q hr hq
    simp only [contentfulImage, hr, hq]
    by_cases hqe : q = ""
    · rw [if_pos hqe, if_pos hqe, String.append_empty]
    · rw [if_neg hqe, if_neg hqe, String.append_assoc]

theorem claim_C8_witness :
    getContentfulImageSrcUrl (.str "https://a.b.c/") = some "https://a.b.c/"
    ∧ getContentfulImageQuery [("width", JSValue.int 123)] = some "w=123"
    ∧ contentfulImage (.str "https://a.b.c/") [("width", JSValue.int 123)]
      = some (if ("w=123" : String) = "" then "https://a.b.c/"
          else "https://a.b.c/" ++ "?" ++ "w=123") :=
  ⟨by decide, by decide,
    claim_C8.2 (.str "https://a.b.c/") [("width", JSValue.int 123)]
      "https://a.b.c/" "w=123" (by decide) (by decide)⟩

theorem claim_C7_witness :
    (startsWithSlashSlash "//a.b.c/img" = true
      ∧ getContentfulImageSrcUrl (.str "//a.b.c/img")
          = some (stripQuery ("https:" ++ "//a.b.c/img")))
    ∧ (startsWithSlashSlash "https://x" = false
      ∧ getContentfulImageSrcUrl (.str "https://x")
          = some (stripQuery "https://x")
      ∧ ∃ r, ("https://x" : String).data = (stripQuery "https://x").data ++ r) :=
  ⟨⟨by decide, claim_C7.1 "//a.b.c/img" (by decide)⟩,
   ⟨by decide, (claim_C7.2.1 "https://x" (by decide)).1,
     (claim_C7.2.1 "https://x" (by decide)).2⟩⟩


end ContentfulImage
